import Mathlib

/-!
# Dead man's switch inheritance vault — verification of the lifecycle engine

Shallow embedding of the vault lifecycle code (time helpers, validation,
persistence serialization, beneficiary setup, check-in, claim, status
derivation).  Timestamps are seconds since epoch as `Nat`; on-chain wei
amounts are `Int` (JavaScript `bigint` is signed); the external delegation
framework (address format check, delegation signing and hashing, disable
transactions) is abstracted as a capability record `ChainEnv` passed to the
operations, exactly as the design notes prescribe for testability.
-/

namespace Deadman

/-! ## Time/Period utility (vault/utils/time-helpers.ts) -/

/-- Period units supported by the check-in timer. -/
inductive PeriodUnit where
  | minutes
  | hours
  | days
  | weeks
  | months
deriving DecidableEq, Repr

/-- Seconds in one unit: months are approximated as 30 days, as in the source. -/
def PeriodUnit.seconds : PeriodUnit → Nat
  | .minutes => 60
  | .hours => 60 * 60
  | .days => 24 * 60 * 60
  | .weeks => 7 * 24 * 60 * 60
  | .months => 30 * 24 * 60 * 60

/-- `getDeadlineFromPeriod`: current time plus `period` counted in `unit`. -/
def getDeadlineFromPeriod (now : Nat) (period : Nat) (unit : PeriodUnit) : Nat :=
  now + period * unit.seconds

/-- `isDeadlinePassed`: `now >= deadline`. -/
def isDeadlinePassed (now deadline : Nat) : Bool :=
  deadline ≤ now

/-- `formatDuration`: human-readable duration string. -/
def formatDuration (s : Nat) : String :=
  if s = 0 then "Now"
  else
    let days := s / 86400
    let hours := s % 86400 / 3600
    let minutes := s % 3600 / 60
    let secs := s % 60
    let parts :=
      (if 0 < days then [toString days ++ "d"] else []) ++
      (if 0 < hours then [toString hours ++ "h"] else []) ++
      (if 0 < minutes then [toString minutes ++ "m"] else []) ++
      (if 0 < secs ∧ days = 0 then [toString secs ++ "s"] else [])
    let joined := String.intercalate " " parts
    if joined = "" then "0s" else joined

/-- Result of `calculateTimeRemaining`. -/
structure TimeCalculation where
  secondsRemaining : Nat
  humanReadable : String
  isPast : Bool
  deadline : Nat
deriving DecidableEq, Repr

/-- `calculateTimeRemaining`: signed difference `deadline - now`, clamped at 0;
`isPast` when the difference is `≤ 0`. -/
def calculateTimeRemaining (now deadline : Nat) : TimeCalculation :=
  let diff : Int := (deadline : Int) - (now : Int)
  { secondsRemaining := diff.toNat
    humanReadable := formatDuration diff.natAbs
    isPast := decide (diff ≤ 0)
    deadline := deadline }

/-! ## Data model (vault/types/index.ts) -/

/-- The delegation payload handed to the external framework: delegator (the
vault), delegate (the beneficiary), and the three composed caveats — the
timestamp threshold after which redemption is allowed, the single-use limit
being implicit in the design, and the transfer-amount cap. -/
structure Delegation where
  delegator : String
  delegate : String
  afterThreshold : Nat
  maxAmount : Int
  tokenAddress : String
deriving DecidableEq, Repr

/-- `Beneficiary` record.  `percentage` is stored here in basis points (the
source computes `Number((allocation * 10000n) / balance) / 100` for display;
the final division by 100 is presentation only). -/
structure Beneficiary where
  address : String
  name : String
  allocation : Int
  percentage : Int
  tokenAddress : String
  delegation : Option Delegation
  delegationHash : Option String
  hasClaimed : Bool
  claimTxHash : Option String
  claimTimestamp : Option Nat
deriving DecidableEq, Repr

/-- `StoredDelegation`: one persisted signed delegation per beneficiary per epoch. -/
structure StoredDelegation where
  beneficiaryAddress : String
  delegation : Delegation
  signature : String
  hash : String
  createdAt : Nat
  deadline : Nat
  isDisabled : Bool
deriving DecidableEq, Repr

/-- `VaultConfig`: core vault settings. -/
structure VaultConfig where
  vaultAddress : String
  ownerAddress : String
  checkInPeriod : Nat
  checkInPeriodUnit : PeriodUnit
  lastCheckIn : Nat
  nextDeadline : Nat
  totalValue : Int
  tokens : List String
  createdAt : Nat
deriving DecidableEq, Repr

/-- `CheckInRecord`: appended to history at each check-in. -/
structure CheckInRecord where
  timestamp : Nat
  txHash : String
  newDeadline : Nat
  disabledDelegationCount : Nat
  createdDelegationCount : Nat
  gasUsed : Int
deriving DecidableEq, Repr

/-- `VaultStorage`: the persisted root aggregate. -/
structure VaultStorage where
  config : VaultConfig
  beneficiaries : List Beneficiary
  delegations : List StoredDelegation
  checkIns : List CheckInRecord
  lastUpdated : Nat
deriving DecidableEq, Repr

/-- `getActiveDelegations`: the non-disabled stored delegations. -/
def getActiveDelegations (v : VaultStorage) : List StoredDelegation :=
  v.delegations.filter (fun d => !d.isDisabled)

/-! ## Status derivation (vault/core/status.ts, getVaultStatus) -/

/-- The five-valued vault status. -/
inductive VaultStatus where
  | created
  | active
  | claimable
  | empty
  | disabled
deriving DecidableEq, Repr

/-- `getVaultStatus`, status computation: the stored record plus the live
balance plus the current time determine the status.  The source computes a
base status by the if/else chain, then overrides it to `EMPTY` when every
beneficiary has claimed and at least one beneficiary exists. -/
def getVaultStatus (v : VaultStorage) (balance : Nat) (now : Nat) : VaultStatus :=
  let timeCalc := calculateTimeRemaining now v.config.nextDeadline
  let base :=
    if v.beneficiaries.length = 0 then VaultStatus.created
    else if balance = 0 then VaultStatus.empty
    else if timeCalc.isPast then VaultStatus.claimable
    else if 0 < (getActiveDelegations v).length then VaultStatus.active
    else VaultStatus.disabled
  if v.beneficiaries.all (fun b => b.hasClaimed) = true ∧ 0 < v.beneficiaries.length then
    VaultStatus.empty
  else base

/-- Modelled from the spec: the status table of §4.4 read as a priority list,
in the order the spec states the cases (CREATED, EMPTY, CLAIMABLE, ACTIVE,
DISABLED), each case with exactly the spec's condition. -/
def statusSpec (v : VaultStorage) (balance : Nat) (now : Nat) : VaultStatus :=
  if v.beneficiaries.length = 0 then VaultStatus.created
  else if balance = 0 ∨ v.beneficiaries.all (fun b => b.hasClaimed) = true then VaultStatus.empty
  else if isDeadlinePassed now v.config.nextDeadline = true ∧ 0 < balance ∧
      ¬ v.beneficiaries.all (fun b => b.hasClaimed) = true then VaultStatus.claimable
  else if 1 ≤ v.beneficiaries.length ∧ 0 < balance ∧
      isDeadlinePassed now v.config.nextDeadline = false ∧
      1 ≤ (getActiveDelegations v).length then VaultStatus.active
  else VaultStatus.disabled

/-! ## String helpers

JavaScript `toLowerCase` and `trim`, modelled character-wise. -/

/-- `String.prototype.toLowerCase`. -/
def toLowerString (s : String) : String :=
  String.mk (s.data.map Char.toLower)

/-- `String.prototype.trim`: whitespace stripped from both ends. -/
def trimString (s : String) : String :=
  String.mk (((s.data.dropWhile Char.isWhitespace).reverse.dropWhile Char.isWhitespace).reverse)

/-! ## External capability record

The delegation framework, the address format check of the `viem` library and
the transaction layer are external collaborators; they enter the model as an
injected capability record, per the design notes. -/

/-- Capabilities consumed from the external SDK / chain. -/
structure ChainEnv where
  /-- `viem` `isAddress` format check. -/
  isAddr : String → Bool
  /-- `vault.signDelegation`. -/
  sign : Delegation → String
  /-- `keccak256(toHex(JSON.stringify(delegation)))`. -/
  hashOf : Delegation → String
  /-- whether the on-chain disable transaction of a delegation succeeds. -/
  disableOk : StoredDelegation → Bool
  /-- transaction hash of a submitted disable transaction. -/
  disableTx : StoredDelegation → String
  /-- gas used by a disable transaction, from its receipt. -/
  gasOf : StoredDelegation → Int
  /-- transaction hash of a submitted claim redemption. -/
  claimTx : Beneficiary → String

/-! ## Validation (vault/utils/validation.ts) -/

/-- `ValidationResult`. -/
structure ValidationResult where
  isValid : Bool
  error : Option String := none
  warnings : Option (List String) := none
deriving DecidableEq, Repr

/-- `validateAddress`: format check via the external `isAddress`. -/
def validateAddress (env : ChainEnv) (address : String) : ValidationResult :=
  if !env.isAddr address then
    { isValid := false, error := some ("Invalid Ethereum address: " ++ address) }
  else
    { isValid := true }

/-- Total allocation of a beneficiary list (the `reduce` in the source). -/
def totalAllocation (beneficiaries : List Beneficiary) : Int :=
  (beneficiaries.map (fun b => b.allocation)).sum

/-- `validateBeneficiaryAllocations`. -/
def validateBeneficiaryAllocations (beneficiaries : List Beneficiary)
    (vaultBalance : Int) : ValidationResult :=
  if beneficiaries.length = 0 then
    { isValid := false, error := some "At least one beneficiary is required" }
  else if 10 < beneficiaries.length then
    { isValid := false, error := some "Maximum 10 beneficiaries allowed"
      warnings := some ["Large number of beneficiaries will increase gas costs significantly"] }
  else if vaultBalance < totalAllocation beneficiaries then
    { isValid := false
      error := some ("Total allocation (" ++ toString (totalAllocation beneficiaries) ++
        ") exceeds vault balance (" ++ toString vaultBalance ++ ")") }
  else
    match beneficiaries.find? (fun b => b.allocation ≤ 0) with
    | some b =>
        { isValid := false
          error := some ("Beneficiary " ++ b.name ++ " has zero or negative allocation") }
    | none =>
        let warnings :=
          if totalAllocation beneficiaries < vaultBalance then
            [toString (vaultBalance - totalAllocation beneficiaries) ++
              " wei unallocated. Remaining funds will stay in vault."]
          else []
        { isValid := true
          warnings := if warnings.length = 0 then none else some warnings }

/-- Period length in minutes (the conversion switch in `validateCheckInPeriod`). -/
def periodTotalMinutes (period : Nat) (unit : PeriodUnit) : Nat :=
  match unit with
  | .minutes => period
  | .hours => period * 60
  | .days => period * 24 * 60
  | .weeks => period * 7 * 24 * 60
  | .months => period * 30 * 24 * 60

/-- `validateCheckInPeriod`: minimum 5 minutes, maximum 1 year, warnings below
one hour and above six months. -/
def validateCheckInPeriod (period : Nat) (unit : PeriodUnit) : ValidationResult :=
  let totalMinutes := periodTotalMinutes period unit
  if totalMinutes < 5 then
    { isValid := false, error := some "Check-in period must be at least 5 minutes" }
  else if 365 * 24 * 60 < totalMinutes then
    { isValid := false, error := some "Check-in period cannot exceed 1 year" }
  else
    let warnings :=
      (if totalMinutes < 60 then ["Very short check-in period - suitable for testing only"]
       else []) ++
      (if 180 * 24 * 60 < totalMinutes then ["Long check-in period - consider a shorter interval"]
       else [])
    { isValid := true
      warnings := if warnings.length = 0 then none else some warnings }

/-- Minimum balance accepted by `validateVaultBalance` (0.001 MON in wei). -/
def MIN_BALANCE : Int := 1000000000000000

/-- `validateVaultBalance`. -/
def validateVaultBalance (balance : Int) : ValidationResult :=
  if balance < MIN_BALANCE then
    { isValid := false
      error := some ("Vault balance too low. Minimum: " ++ toString MIN_BALANCE ++
        " wei (0.001 MON)") }
  else
    { isValid := true }

/-- `validateBeneficiaryName`: non-empty after trimming, at most 50 characters. -/
def validateBeneficiaryName (name : String) : ValidationResult :=
  if (trimString name).length = 0 then
    { isValid := false, error := some "Beneficiary name cannot be empty" }
  else if 50 < name.length then
    { isValid := false, error := some "Beneficiary name too long (max 50 characters)" }
  else
    { isValid := true }

/-- Scan of `validateNoDuplicates`: seen-set of lowercased addresses. -/
def noDuplicatesScan (seen : List String) : List String → ValidationResult
  | [] => { isValid := true }
  | address :: rest =>
    let normalized := toLowerString address
    if seen.contains normalized then
      { isValid := false, error := some ("Duplicate beneficiary address: " ++ address) }
    else
      noDuplicatesScan (normalized :: seen) rest

/-- `validateNoDuplicates`: rejects case-insensitive duplicate addresses. -/
def validateNoDuplicates (addresses : List String) : ValidationResult :=
  noDuplicatesScan [] addresses

/-- Warning concatenation of `validateVaultSetup`: period warnings then
beneficiary warnings, `none` when the concatenation is empty. -/
def combinedWarnings (w1 w2 : Option (List String)) : Option (List String) :=
  let warnings := w1.getD [] ++ w2.getD []
  if warnings.length = 0 then none else some warnings

/-- `validateVaultSetup`: the composed validator — owner address, then period,
then minimum balance, then beneficiary allocations, then duplicates; the first
failing check's result is returned unchanged, and on success the period and
allocation warnings are concatenated. -/
def validateVaultSetup (env : ChainEnv) (ownerAddress : String)
    (beneficiaries : List Beneficiary) (vaultBalance : Int)
    (period : Nat) (unit : PeriodUnit) : ValidationResult :=
  let ownerValidation := validateAddress env ownerAddress
  if ownerValidation.isValid = false then ownerValidation
  else
    let periodValidation := validateCheckInPeriod period unit
    if periodValidation.isValid = false then periodValidation
    else
      let balanceValidation := validateVaultBalance vaultBalance
      if balanceValidation.isValid = false then balanceValidation
      else
        let beneficiaryValidation := validateBeneficiaryAllocations beneficiaries vaultBalance
        if beneficiaryValidation.isValid = false then beneficiaryValidation
        else
          let duplicateValidation := validateNoDuplicates (beneficiaries.map (fun b => b.address))
          if duplicateValidation.isValid = false then duplicateValidation
          else
            { isValid := true
              warnings := combinedWarnings periodValidation.warnings
                beneficiaryValidation.warnings }

/-! ## Beneficiary setup (vault/core/setup-beneficiaries.ts)

The persistence store is threaded explicitly: every operation takes the
stored record (or `none` when the vault has no stored record) and returns the
record as left in storage.  On-chain signing, hashing and the balance query
are supplied through `ChainEnv` / explicit arguments. -/

/-- The zero address used as the native-token marker. -/
def ZERO_ADDRESS : String := "0x0000000000000000000000000000000000000000"

/-- Input shape of `setupBeneficiaries` (`params.beneficiaries` entries). -/
structure BeneficiaryInput where
  address : String
  name : String
  allocation : Int
  tokenAddress : Option String
deriving DecidableEq, Repr

/-- `beneficiaryInput.tokenAddress || ZERO_ADDRESS`. -/
def inputTokenAddress (b : BeneficiaryInput) : String :=
  b.tokenAddress.getD ZERO_ADDRESS

/-- Validation failures thrown by `setupBeneficiaries` before anything is
persisted; the spec groups them all as `ValidationError`. -/
inductive SetupError where
  | duplicateAddress
  | invalidAddress
  | invalidName
  | nonPositiveAllocation
  | allocationExceedsBalance
deriving DecidableEq, Repr

/-- The per-beneficiary validation loop of `setupBeneficiaries`: address
format, then name, then positive allocation, first failure wins. -/
def validateEachBeneficiary (env : ChainEnv) : List BeneficiaryInput → Option SetupError
  | [] => none
  | b :: rest =>
    if (validateAddress env b.address).isValid = false then some SetupError.invalidAddress
    else if (validateBeneficiaryName b.name).isValid = false then some SetupError.invalidName
    else if b.allocation ≤ 0 then some SetupError.nonPositiveAllocation
    else validateEachBeneficiary env rest

/-- Total allocation of the inputs (the `reduce` in `setupBeneficiaries`). -/
def inputTotalAllocation (inputs : List BeneficiaryInput) : Int :=
  (inputs.map (fun b => b.allocation)).sum

/-- The delegation built for one beneficiary: delegator is the vault, the
timestamp caveat opens at `deadline`, the transfer-amount caveat caps at the
allocation. -/
def mkDelegation (vaultAddress : String) (deadline : Nat) (b : BeneficiaryInput) : Delegation :=
  { delegator := vaultAddress
    delegate := b.address
    afterThreshold := deadline
    maxAmount := b.allocation
    tokenAddress := inputTokenAddress b }

/-- The `Beneficiary` record built for one input.  `percentage` is kept in
basis points: the source computes `Number((allocation * 10000n) / balance)/100`
and only the exact bigint division is modelled. -/
def mkBeneficiary (env : ChainEnv) (vaultAddress : String) (vaultBalance : Int)
    (deadline : Nat) (b : BeneficiaryInput) : Beneficiary :=
  let d := mkDelegation vaultAddress deadline b
  { address := b.address
    name := b.name
    allocation := b.allocation
    percentage := b.allocation * 10000 / vaultBalance
    tokenAddress := inputTokenAddress b
    delegation := some d
    delegationHash := some (env.hashOf d)
    hasClaimed := false
    claimTxHash := none
    claimTimestamp := none }

/-- The `StoredDelegation` record built for one input: signed, hashed, tagged
with creation time and the encoded deadline, not disabled. -/
def mkStoredDelegation (env : ChainEnv) (vaultAddress : String) (now deadline : Nat)
    (b : BeneficiaryInput) : StoredDelegation :=
  let d := mkDelegation vaultAddress deadline b
  { beneficiaryAddress := b.address
    delegation := d
    signature := env.sign d
    hash := env.hashOf d
    createdAt := now
    deadline := deadline
    isDisabled := false }

/-- `setupBeneficiaries`: validates duplicates, then each beneficiary, then
the allocation total against the live balance; on success builds one
delegation per beneficiary and, when a stored record exists, persists the
full beneficiary and delegation set, overwriting the prior lists. -/
def setupBeneficiaries (env : ChainEnv) (vaultAddress : String) (vaultBalance : Int)
    (now deadline : Nat) (inputs : List BeneficiaryInput) (store : Option VaultStorage) :
    Except SetupError (List Beneficiary) × Option VaultStorage :=
  if (validateNoDuplicates (inputs.map (fun b => b.address))).isValid = false then
    (Except.error SetupError.duplicateAddress, store)
  else
    match validateEachBeneficiary env inputs with
    | some e => (Except.error e, store)
    | none =>
      if vaultBalance < inputTotalAllocation inputs then
        (Except.error SetupError.allocationExceedsBalance, store)
      else
        let beneficiaries := inputs.map (mkBeneficiary env vaultAddress vaultBalance deadline)
        let storedDelegations := inputs.map (mkStoredDelegation env vaultAddress now deadline)
        match store with
        | some vaultData =>
            (Except.ok beneficiaries,
             some { vaultData with
                beneficiaries := beneficiaries
                delegations := storedDelegations
                lastUpdated := now })
        | none => (Except.ok beneficiaries, none)

/-! ## Claim (vault/core/claim.ts, simpleClaim → claimInheritance) -/

/-- Claim rejection reasons; the spec names them `AlreadyClaimedError`,
`DelegationDisabledError`, `TooEarlyError` (with seconds remaining),
and the not-found cases. -/
inductive ClaimError where
  | vaultNotFound
  | beneficiaryNotFound
  | delegationNotFound
  | delegationDisabled
  | tooEarly (secondsRemaining : Nat)
  | alreadyClaimed
deriving DecidableEq, Repr

/-- Case-insensitive address match used by the `find` calls of the source. -/
def matchesAddress (target : String) (address : String) : Bool :=
  toLowerString address == toLowerString target

/-- Mark the first beneficiary matching the address as claimed, recording the
transaction hash and timestamp (the `findIndex` + assignment of the source). -/
def markFirstClaimed (target txHash : String) (now : Nat) :
    List Beneficiary → List Beneficiary
  | [] => []
  | b :: rest =>
    if matchesAddress target b.address then
      { b with hasClaimed := true, claimTxHash := some txHash, claimTimestamp := some now } :: rest
    else
      b :: markFirstClaimed target txHash now rest

/-- `simpleClaim` followed by `claimInheritance`, at the storage level: locate
the beneficiary and its stored delegation, reject a disabled delegation, then
(inside `claimInheritance`, which reloads the same record through the
delegation's `from` address) reject before the deadline, then reject an
already-claimed beneficiary; otherwise submit the redemption (abstracted as
succeeding, with hash `env.claimTx`) and persist the claimed flags. -/
def simpleClaim (env : ChainEnv) (now : Nat) (beneficiaryAddress : String)
    (store : Option VaultStorage) :
    Except ClaimError (String × Int) × Option VaultStorage :=
  match store with
  | none => (Except.error ClaimError.vaultNotFound, none)
  | some vaultData =>
    match vaultData.beneficiaries.find? (fun b => matchesAddress beneficiaryAddress b.address) with
    | none => (Except.error ClaimError.beneficiaryNotFound, some vaultData)
    | some beneficiary =>
      match vaultData.delegations.find?
          (fun d => matchesAddress beneficiaryAddress d.beneficiaryAddress) with
      | none => (Except.error ClaimError.delegationNotFound, some vaultData)
      | some storedDelegation =>
        if storedDelegation.isDisabled then
          (Except.error ClaimError.delegationDisabled, some vaultData)
        else if isDeadlinePassed now vaultData.config.nextDeadline = false then
          (Except.error (ClaimError.tooEarly (vaultData.config.nextDeadline - now)),
           some vaultData)
        else if beneficiary.hasClaimed then
          (Except.error ClaimError.alreadyClaimed, some vaultData)
        else
          let txHash := env.claimTx beneficiary
          (Except.ok (txHash, beneficiary.allocation),
           some { vaultData with
              beneficiaries :=
                markFirstClaimed beneficiaryAddress txHash now vaultData.beneficiaries
              lastUpdated := now })

/-! ## Check-in (vault/core/check-in.ts) -/

/-- Check-in failures: a missing vault, the fatal `NoActiveDelegationsError`,
or a failure propagated from the re-run of `setupBeneficiaries`. -/
inductive CheckInError where
  | vaultNotFound
  | noActiveDelegations
  | setupFailed (e : SetupError)
deriving DecidableEq, Repr

/-- `params.newCheckInPeriodDays || config.checkInPeriod` — JavaScript `||`
treats a provided 0 as absent. -/
def effectivePeriod (newCheckInPeriodDays : Option Nat) (current : Nat) : Nat :=
  match newCheckInPeriodDays with
  | some p => if p = 0 then current else p
  | none => current

/-- The disable phase of `checkIn`: every active delegation whose on-chain
disable transaction succeeds is marked disabled via `updateDelegationStatus`
(each mark is persisted immediately; failures are logged and skipped). -/
def markDisabled (env : ChainEnv) (now : Nat) (vaultData : VaultStorage) : VaultStorage :=
  { vaultData with
      delegations := vaultData.delegations.map (fun d =>
        if !d.isDisabled && env.disableOk d then { d with isDisabled := true } else d)
      lastUpdated := now }

/-- The input list `checkIn` rebuilds from the vault's beneficiaries. -/
def beneficiaryToInput (b : Beneficiary) : BeneficiaryInput :=
  { address := b.address
    name := b.name
    allocation := b.allocation
    tokenAddress := some b.tokenAddress }

/-- `checkIn`: fails fatally when no active delegation exists; otherwise
disables the active delegations best-effort, recomputes the deadline from the
new period (if truthy) or the existing one, re-runs `setupBeneficiaries` with
the existing beneficiary list, and finally saves the in-memory record that was
loaded at the start of the operation — with its config updated and the
check-in appended, but with the beneficiaries and delegations lists exactly as
loaded (the source keeps no reference to what the inner operations saved). -/
def checkIn (env : ChainEnv) (vaultBalance : Int) (now : Nat)
    (newCheckInPeriodDays : Option Nat) (store : Option VaultStorage) :
    Except CheckInError CheckInRecord × Option VaultStorage :=
  match store with
  | none => (Except.error CheckInError.vaultNotFound, none)
  | some vaultData =>
    let activeDelegations := getActiveDelegations vaultData
    if activeDelegations.length = 0 then
      (Except.error CheckInError.noActiveDelegations, some vaultData)
    else
      let succeeded := activeDelegations.filter env.disableOk
      let txHashes := succeeded.map env.disableTx
      let v1 := markDisabled env now vaultData
      let newPeriod := effectivePeriod newCheckInPeriodDays vaultData.config.checkInPeriod
      let newDeadline := getDeadlineFromPeriod now newPeriod vaultData.config.checkInPeriodUnit
      match setupBeneficiaries env vaultData.config.vaultAddress vaultBalance now newDeadline
          (vaultData.beneficiaries.map beneficiaryToInput) (some v1) with
      | (Except.error e, st) => (Except.error (CheckInError.setupFailed e), st)
      | (Except.ok newBeneficiaries, _) =>
        let totalGasUsed := (succeeded.map env.gasOf).sum
        let record : CheckInRecord :=
          { timestamp := now
            txHash := txHashes.headD "0x0"
            newDeadline := newDeadline
            disabledDelegationCount := succeeded.length
            createdDelegationCount := newBeneficiaries.length
            gasUsed := totalGasUsed }
        (Except.ok record,
         some { vaultData with
            config := { vaultData.config with
              lastCheckIn := now
              nextDeadline := newDeadline
              checkInPeriod := effectivePeriod newCheckInPeriodDays vaultData.config.checkInPeriod }
            checkIns := vaultData.checkIns ++ [record]
            lastUpdated := now })

/-! ## Persistence serialization (vault/utils/delegation-storage.ts)

`saveVaultData` serializes the record with `JSON.stringify`, converting every
`bigint` to its decimal string; `loadVaultData` parses it back, reviving the
keys `allocation`, `totalValue`, `gasUsed` and `maxAmount` through `BigInt`.
The JSON text is modelled as a value tree, and the store as an association
list keyed by the lowercased vault address. -/

/-- JSON value tree. -/
inductive Json where
  | str (s : String)
  | num (n : Int)
  | bool (b : Bool)
  | null
  | arr (items : List Json)
  | obj (fields : List (String × Json))

/-- Decimal digit to its character. -/
def digitChar (d : Nat) : Char :=
  Char.ofNat (48 + d)

/-- Character to its decimal digit value. -/
def charDigit (c : Char) : Nat :=
  c.toNat - 48

/-- Decimal representation of a natural number (most significant first). -/
def natDecimal (n : Nat) : List Char :=
  if n = 0 then ['0'] else ((Nat.digits 10 n).map digitChar).reverse

/-- Value of a decimal character string. -/
def decimalNat (s : List Char) : Nat :=
  Nat.ofDigits 10 ((s.map charDigit).reverse)

/-- `BigInt.prototype.toString`: decimal, minus sign for negatives. -/
def bigintToString (i : Int) : String :=
  if i < 0 then String.mk ('-' :: natDecimal i.natAbs) else String.mk (natDecimal i.toNat)

/-- `BigInt(string)` on decimal strings (the reviver's conversion). -/
def stringToBigint (s : String) : Int :=
  match s.data with
  | '-' :: rest => -(decimalNat rest : Int)
  | l => (decimalNat l : Int)

/-- Optional object field: `JSON.stringify` omits `undefined` values. -/
def optField (key : String) (f : α → Json) : Option α → List (String × Json)
  | some a => [(key, f a)]
  | none => []

/-- Field lookup in an object. -/
def Json.getField : Json → String → Option Json
  | .obj fields, key => fields.lookup key
  | _, _ => none

/-- String payload of a JSON value. -/
def parseStr : Json → Option String
  | .str s => some s
  | _ => none

/-- Natural-number payload of a JSON number. -/
def parseNat : Json → Option Nat
  | .num n => some n.toNat
  | _ => none

/-- Integer payload of a JSON number. -/
def parseIntJson : Json → Option Int
  | .num n => some n
  | _ => none

/-- Boolean payload of a JSON value. -/
def parseBool : Json → Option Bool
  | .bool b => some b
  | _ => none

/-- The reviver's `BigInt(value)` on a serialized bigint field. -/
def parseBigint : Json → Option Int
  | .str s => some (stringToBigint s)
  | _ => none

/-- Required field, read through a sub-parser. -/
def getWith (j : Json) (key : String) (f : Json → Option α) : Option α :=
  (j.getField key).bind f

/-- Optional field, read through a sub-parser: an absent key is `none`. -/
def getOptWith (j : Json) (key : String) (f : Json → Option α) : Option (Option α) :=
  match j.getField key with
  | none => some none
  | some jv => (f jv).map some

/-- Element-wise list parser. -/
def parseList (f : Json → Option α) : List Json → Option (List α)
  | [] => some []
  | j :: rest => do
    let a ← f j
    let as ← parseList f rest
    pure (a :: as)

/-- Array payload, parsed element-wise. -/
def parseArr (f : Json → Option α) : Json → Option (List α)
  | .arr items => parseList f items
  | _ => none

/-- The string value of a period unit (the enum's literal). -/
def periodUnitString : PeriodUnit → String
  | .minutes => "minutes"
  | .hours => "hours"
  | .days => "days"
  | .weeks => "weeks"
  | .months => "months"

/-- Period unit from its string value. -/
def parsePeriodUnit (s : String) : Option PeriodUnit :=
  if s = "minutes" then some PeriodUnit.minutes
  else if s = "hours" then some PeriodUnit.hours
  else if s = "days" then some PeriodUnit.days
  else if s = "weeks" then some PeriodUnit.weeks
  else if s = "months" then some PeriodUnit.months
  else none

/-- Serialize a delegation payload. -/
def serializeDelegation (d : Delegation) : Json :=
  Json.obj [("delegator", Json.str d.delegator),
    ("delegate", Json.str d.delegate),
    ("afterThreshold", Json.num d.afterThreshold),
    ("maxAmount", Json.str (bigintToString d.maxAmount)),
    ("tokenAddress", Json.str d.tokenAddress)]

/-- Parse a delegation payload. -/
def parseDelegation (j : Json) : Option Delegation := do
  let delegator ← getWith j "delegator" parseStr
  let delegate ← getWith j "delegate" parseStr
  let afterThreshold ← getWith j "afterThreshold" parseNat
  let maxAmount ← getWith j "maxAmount" parseBigint
  let tokenAddress ← getWith j "tokenAddress" parseStr
  pure { delegator := delegator
         delegate := delegate
         afterThreshold := afterThreshold
         maxAmount := maxAmount
         tokenAddress := tokenAddress }

/-- Serialize a beneficiary (optional fields omitted when absent). -/
def serializeBeneficiary (b : Beneficiary) : Json :=
  Json.obj ([("address", Json.str b.address),
    ("name", Json.str b.name),
    ("allocation", Json.str (bigintToString b.allocation)),
    ("percentage", Json.num b.percentage),
    ("tokenAddress", Json.str b.tokenAddress),
    ("hasClaimed", Json.bool b.hasClaimed)] ++
    optField "delegation" serializeDelegation b.delegation ++
    optField "delegationHash" Json.str b.delegationHash ++
    optField "claimTxHash" Json.str b.claimTxHash ++
    optField "claimTimestamp" (fun n => Json.num n) b.claimTimestamp)

/-- Parse a beneficiary. -/
def parseBeneficiary (j : Json) : Option Beneficiary := do
  let address ← getWith j "address" parseStr
  let name ← getWith j "name" parseStr
  let allocation ← getWith j "allocation" parseBigint
  let percentage ← getWith j "percentage" parseIntJson
  let tokenAddress ← getWith j "tokenAddress" parseStr
  let hasClaimed ← getWith j "hasClaimed" parseBool
  let delegation ← getOptWith j "delegation" parseDelegation
  let delegationHash ← getOptWith j "delegationHash" parseStr
  let claimTxHash ← getOptWith j "claimTxHash" parseStr
  let claimTimestamp ← getOptWith j "claimTimestamp" parseNat
  pure { address := address
         name := name
         allocation := allocation
         percentage := percentage
         tokenAddress := tokenAddress
         delegation := delegation
         delegationHash := delegationHash
         hasClaimed := hasClaimed
         claimTxHash := claimTxHash
         claimTimestamp := claimTimestamp }

/-- Serialize a stored delegation. -/
def serializeStoredDelegation (d : StoredDelegation) : Json :=
  Json.obj [("beneficiaryAddress", Json.str d.beneficiaryAddress),
    ("delegation", serializeDelegation d.delegation),
    ("signature", Json.str d.signature),
    ("hash", Json.str d.hash),
    ("createdAt", Json.num d.createdAt),
    ("deadline", Json.num d.deadline),
    ("isDisabled", Json.bool d.isDisabled)]

/-- Parse a stored delegation. -/
def parseStoredDelegation (j : Json) : Option StoredDelegation := do
  let beneficiaryAddress ← getWith j "beneficiaryAddress" parseStr
  let delegation ← getWith j "delegation" parseDelegation
  let signature ← getWith j "signature" parseStr
  let hash ← getWith j "hash" parseStr
  let createdAt ← getWith j "createdAt" parseNat
  let deadline ← getWith j "deadline" parseNat
  let isDisabled ← getWith j "isDisabled" parseBool
  pure { beneficiaryAddress := beneficiaryAddress
         delegation := delegation
         signature := signature
         hash := hash
         createdAt := createdAt
         deadline := deadline
         isDisabled := isDisabled }

/-- Serialize the vault configuration. -/
def serializeConfig (c : VaultConfig) : Json :=
  Json.obj [("vaultAddress", Json.str c.vaultAddress),
    ("ownerAddress", Json.str c.ownerAddress),
    ("checkInPeriod", Json.num c.checkInPeriod),
    ("checkInPeriodUnit", Json.str (periodUnitString c.checkInPeriodUnit)),
    ("lastCheckIn", Json.num c.lastCheckIn),
    ("nextDeadline", Json.num c.nextDeadline),
    ("totalValue", Json.str (bigintToString c.totalValue)),
    ("tokens", Json.arr (c.tokens.map Json.str)),
    ("createdAt", Json.num c.createdAt)]

/-- Parse the vault configuration. -/
def parseConfig (j : Json) : Option VaultConfig := do
  let vaultAddress ← getWith j "vaultAddress" parseStr
  let ownerAddress ← getWith j "ownerAddress" parseStr
  let checkInPeriod ← getWith j "checkInPeriod" parseNat
  let unitName ← getWith j "checkInPeriodUnit" parseStr
  let checkInPeriodUnit ← parsePeriodUnit unitName
  let lastCheckIn ← getWith j "lastCheckIn" parseNat
  let nextDeadline ← getWith j "nextDeadline" parseNat
  let totalValue ← getWith j "totalValue" parseBigint
  let tokens ← getWith j "tokens" (parseArr parseStr)
  let createdAt ← getWith j "createdAt" parseNat
  pure { vaultAddress := vaultAddress
         ownerAddress := ownerAddress
         checkInPeriod := checkInPeriod
         checkInPeriodUnit := checkInPeriodUnit
         lastCheckIn := lastCheckIn
         nextDeadline := nextDeadline
         totalValue := totalValue
         tokens := tokens
         createdAt := createdAt }

/-- Serialize a check-in record. -/
def serializeCheckInRecord (r : CheckInRecord) : Json :=
  Json.obj [("timestamp", Json.num r.timestamp),
    ("txHash", Json.str r.txHash),
    ("newDeadline", Json.num r.newDeadline),
    ("disabledDelegationCount", Json.num r.disabledDelegationCount),
    ("createdDelegationCount", Json.num r.createdDelegationCount),
    ("gasUsed", Json.str (bigintToString r.gasUsed))]

/-- Parse a check-in record. -/
def parseCheckInRecord (j : Json) : Option CheckInRecord := do
  let timestamp ← getWith j "timestamp" parseNat
  let txHash ← getWith j "txHash" parseStr
  let newDeadline ← getWith j "newDeadline" parseNat
  let disabledDelegationCount ← getWith j "disabledDelegationCount" parseNat
  let createdDelegationCount ← getWith j "createdDelegationCount" parseNat
  let gasUsed ← getWith j "gasUsed" parseBigint
  pure { timestamp := timestamp
         txHash := txHash
         newDeadline := newDeadline
         disabledDelegationCount := disabledDelegationCount
         createdDelegationCount := createdDelegationCount
         gasUsed := gasUsed }

/-- Serialize the full stored record (`JSON.stringify` with bigint replacer). -/
def serializeVault (v : VaultStorage) : Json :=
  Json.obj [("config", serializeConfig v.config),
    ("beneficiaries", Json.arr (v.beneficiaries.map serializeBeneficiary)),
    ("delegations", Json.arr (v.delegations.map serializeStoredDelegation)),
    ("checkIns", Json.arr (v.checkIns.map serializeCheckInRecord)),
    ("lastUpdated", Json.num v.lastUpdated)]

/-- Parse the full stored record (`JSON.parse` with the bigint reviver). -/
def parseVault (j : Json) : Option VaultStorage := do
  let config ← getWith j "config" parseConfig
  let beneficiaries ← getWith j "beneficiaries" (parseArr parseBeneficiary)
  let delegations ← getWith j "delegations" (parseArr parseStoredDelegation)
  let checkIns ← getWith j "checkIns" (parseArr parseCheckInRecord)
  let lastUpdated ← getWith j "lastUpdated" parseNat
  pure { config := config
         beneficiaries := beneficiaries
         delegations := delegations
         checkIns := checkIns
         lastUpdated := lastUpdated }

/-- `saveVaultData`: store the serialized record under the lowercased address. -/
def saveVaultData (store : List (String × Json)) (vaultAddress : String)
    (data : VaultStorage) : List (String × Json) :=
  (toLowerString vaultAddress, serializeVault data) :: store

/-- `loadVaultData`: parse the record stored under the lowercased address. -/
def loadVaultData (store : List (String × Json)) (vaultAddress : String) :
    Option VaultStorage :=
  (store.lookup (toLowerString vaultAddress)).bind parseVault

/-! ## Concrete fixtures

A capability record whose external operations all succeed, and small concrete
vault records, used to instantiate the theorems below at executable inputs. -/

/-- Capability record with every external operation succeeding. -/
def envAllValid : ChainEnv :=
  { isAddr := fun _ => true
    sign := fun _ => "0xsignature"
    hashOf := fun d => "0xhash-" ++ d.delegate
    disableOk := fun _ => true
    disableTx := fun _ => "0xdisabletx"
    gasOf := fun _ => 21000
    claimTx := fun _ => "0xclaimtx" }

/-- A first beneficiary input. -/
def input0 : BeneficiaryInput :=
  { address := "0xB1", name := "Alice Jr", allocation := 1, tokenAddress := none }

/-- A second beneficiary input, distinct address. -/
def input2 : BeneficiaryInput :=
  { address := "0xB2", name := "Bob Jr", allocation := 1, tokenAddress := none }

/-- A concrete vault configuration: 5-minute period, deadline at 1300. -/
def config0 : VaultConfig :=
  { vaultAddress := "0xVault"
    ownerAddress := "0xOwner"
    checkInPeriod := 5
    checkInPeriodUnit := PeriodUnit.minutes
    lastCheckIn := 1000
    nextDeadline := 1300
    totalValue := MIN_BALANCE
    tokens := []
    createdAt := 1000 }

/-- A concrete stored vault with one beneficiary and one active delegation. -/
def vault0 : VaultStorage :=
  { config := config0
    beneficiaries := [mkBeneficiary envAllValid "0xVault" MIN_BALANCE 1300 input0]
    delegations := [mkStoredDelegation envAllValid "0xVault" 1000 1300 input0]
    checkIns := []
    lastUpdated := 1000 }

/-- A beneficiary record with an empty display name (otherwise valid). -/
def benEmptyName : Beneficiary :=
  mkBeneficiary envAllValid "0xVault" MIN_BALANCE 1300 { input0 with name := "" }

/-- An input whose allocation exceeds a small balance. -/
def overInput : BeneficiaryInput :=
  { address := "0xB3", name := "Carol", allocation := 5, tokenAddress := none }

/-- `vault0` with its sole beneficiary already marked claimed. -/
def vaultClaimed : VaultStorage :=
  { vault0 with
      beneficiaries :=
        [{ mkBeneficiary envAllValid "0xVault" MIN_BALANCE 1300 input0 with hasClaimed := true }] }

/-- `vault0` with a beneficiary whose allocation exceeds the vault balance
(as happens when the balance drops after setup), delegation still active. -/
def vaultOver : VaultStorage :=
  { vault0 with
      beneficiaries :=
        [mkBeneficiary envAllValid "0xVault" MIN_BALANCE 1300
          { input0 with allocation := MIN_BALANCE + 1 }] }

/-- The check-in record produced by a check-in on `vault0` at time 2000. -/
def checkInRec1 : CheckInRecord :=
  { timestamp := 2000
    txHash := "0xdisabletx"
    newDeadline := 2300
    disabledDelegationCount := 1
    createdDelegationCount := 1
    gasUsed := 21000 }

/-- The stored record after that check-in: config updated and the record
appended, beneficiaries and delegations as loaded before the operation. -/
def vaultAfter1 : VaultStorage :=
  { vault0 with
      config := { config0 with lastCheckIn := 2000, nextDeadline := 2300 }
      checkIns := [checkInRec1]
      lastUpdated := 2000 }

/-- The check-in record of a second check-in at time 2100. -/
def checkInRec2 : CheckInRecord :=
  { timestamp := 2100
    txHash := "0xdisabletx"
    newDeadline := 2400
    disabledDelegationCount := 1
    createdDelegationCount := 1
    gasUsed := 21000 }

/-- The stored record after the second check-in. -/
def vaultAfter2 : VaultStorage :=
  { vaultAfter1 with
      config := { config0 with lastCheckIn := 2100, nextDeadline := 2400 }
      checkIns := [checkInRec1, checkInRec2]
      lastUpdated := 2100 }

/-- The fresh beneficiary list built by the setup re-run inside a check-in on
`vault0` at time 2000. -/
def freshBens0 : List Beneficiary :=
  [mkBeneficiary envAllValid "0xVault" MIN_BALANCE 2300 input0]

/-- The storage state right after that inner setup, before the final save. -/
def midVault0 : VaultStorage :=
  { markDisabled envAllValid 2000 vault0 with
      beneficiaries := freshBens0
      delegations := [mkStoredDelegation envAllValid "0xVault" 2000 2300 input0]
      lastUpdated := 2000 }

/-! # Theorems -/

/-! ## C1 — status derivation -/

/-- The `isPast` flag of `calculateTimeRemaining` agrees with `isDeadlinePassed`. -/
theorem calculateTimeRemaining_isPast (now deadline : Nat) :
    (calculateTimeRemaining now deadline).isPast = isDeadlinePassed now deadline := by
  simp [calculateTimeRemaining, isDeadlinePassed, decide_eq_decide]

/-- C1: the status returned by `getVaultStatus` is the pure function of record,
balance and time given by the spec's case list (CREATED, EMPTY, CLAIMABLE,
ACTIVE, DISABLED in that priority order); moreover whenever it returns
DISABLED, the deadline has not passed and zero non-disabled delegations exist. -/
theorem getVaultStatus_matches_spec (v : VaultStorage) (balance now : Nat) :
    getVaultStatus v balance now = statusSpec v balance now ∧
    (getVaultStatus v balance now = VaultStatus.disabled →
      isDeadlinePassed now v.config.nextDeadline = false ∧
      (getActiveDelegations v).length = 0) := by
  unfold getVaultStatus statusSpec
  simp only [calculateTimeRemaining_isPast]
  rcases Nat.eq_zero_or_pos v.beneficiaries.length with hb | hb
  · simp [hb]
  · rcases hc : v.beneficiaries.all (fun b => b.hasClaimed) with _ | _
    · rcases Nat.eq_zero_or_pos balance with hbal | hbal
      · simp [hb, hc, hbal, Nat.pos_iff_ne_zero.mp hb]
      · rcases hp : isDeadlinePassed now v.config.nextDeadline with _ | _
        · rcases Nat.eq_zero_or_pos (getActiveDelegations v).length with ha | ha
          · simp [hb, hc, hbal, hp, ha, Nat.pos_iff_ne_zero.mp hb, Nat.pos_iff_ne_zero.mp hbal]
          · have hane : getActiveDelegations v ≠ [] := List.length_pos.mp ha
            simp [hb, hc, hbal, hp, ha, hane, Nat.pos_iff_ne_zero.mp hb,
              Nat.pos_iff_ne_zero.mp hbal, Nat.one_le_iff_ne_zero]
        · simp [hb, hc, hbal, hp, Nat.pos_iff_ne_zero.mp hb, Nat.pos_iff_ne_zero.mp hbal]
    · simp [hb, hc, Nat.pos_iff_ne_zero.mp hb]

/-- Witness for C1 at the concrete vault `vault0` with a positive balance. -/
theorem getVaultStatus_matches_spec_witness :
    getVaultStatus vault0 1 2000 = statusSpec vault0 1 2000 :=
  (getVaultStatus_matches_spec vault0 1 2000).1

/-! ## C9 — composed validator -/

/-- C9 counterexample: the composed validator does not run the name check —
an input whose beneficiary has an empty name (rejected by
`validateBeneficiaryName`) still passes `validateVaultSetup`. -/
theorem validateVaultSetup_passes_empty_name :
    (validateBeneficiaryName benEmptyName.name).isValid = false ∧
    benEmptyName ∈ [benEmptyName] ∧
    (validateVaultSetup envAllValid "0xOwner" [benEmptyName] MIN_BALANCE 30
      PeriodUnit.days).isValid = true :=
  ⟨rfl, by simp, rfl⟩

/-- C9 (amended): `validateVaultSetup` runs owner-address, period, minimum
balance, allocation and duplicate checks in that fixed order, returns the
first failing check's result unchanged without running later checks, and on
success accumulates the period and allocation warnings; the beneficiary-name
check is not part of the composition. -/
theorem validateVaultSetup_composition (env : ChainEnv) (owner : String)
    (bens : List Beneficiary) (balance : Int) (period : Nat) (unit : PeriodUnit) :
    ((validateVaultSetup env owner bens balance period unit).isValid = true ↔
      ((validateAddress env owner).isValid = true ∧
       (validateCheckInPeriod period unit).isValid = true ∧
       (validateVaultBalance balance).isValid = true ∧
       (validateBeneficiaryAllocations bens balance).isValid = true ∧
       (validateNoDuplicates (bens.map (fun b => b.address))).isValid = true)) ∧
    ((validateAddress env owner).isValid = false →
      validateVaultSetup env owner bens balance period unit = validateAddress env owner) ∧
    ((validateAddress env owner).isValid = true →
      (validateCheckInPeriod period unit).isValid = false →
      validateVaultSetup env owner bens balance period unit =
        validateCheckInPeriod period unit) ∧
    ((validateAddress env owner).isValid = true →
      (validateCheckInPeriod period unit).isValid = true →
      (validateVaultBalance balance).isValid = false →
      validateVaultSetup env owner bens balance period unit = validateVaultBalance balance) ∧
    ((validateAddress env owner).isValid = true →
      (validateCheckInPeriod period unit).isValid = true →
      (validateVaultBalance balance).isValid = true →
      (validateBeneficiaryAllocations bens balance).isValid = false →
      validateVaultSetup env owner bens balance period unit =
        validateBeneficiaryAllocations bens balance) ∧
    ((validateAddress env owner).isValid = true →
      (validateCheckInPeriod period unit).isValid = true →
      (validateVaultBalance balance).isValid = true →
      (validateBeneficiaryAllocations bens balance).isValid = true →
      (validateNoDuplicates (bens.map (fun b => b.address))).isValid = false →
      validateVaultSetup env owner bens balance period unit =
        validateNoDuplicates (bens.map (fun b => b.address))) ∧
    ((validateVaultSetup env owner bens balance period unit).isValid = true →
      (validateVaultSetup env owner bens balance period unit).warnings =
        combinedWarnings (validateCheckInPeriod period unit).warnings
          (validateBeneficiaryAllocations bens balance).warnings) := by
  rcases h1 : (validateAddress env owner).isValid with _ | _ <;>
    rcases h2 : (validateCheckInPeriod period unit).isValid with _ | _ <;>
      rcases h3 : (validateVaultBalance balance).isValid with _ | _ <;>
        rcases h4 : (validateBeneficiaryAllocations bens balance).isValid with _ | _ <;>
          rcases h5 : (validateNoDuplicates (bens.map (fun b => b.address))).isValid with _ | _ <;>
            simp [validateVaultSetup, h1, h2, h3, h4, h5]

/-- Witness for C9's amended theorem at a concrete valid input. -/
theorem validateVaultSetup_composition_witness :
    (validateVaultSetup envAllValid "0xOwner"
      [mkBeneficiary envAllValid "0xVault" MIN_BALANCE 1300 input0] MIN_BALANCE 30
      PeriodUnit.days).isValid = true :=
  (validateVaultSetup_composition envAllValid "0xOwner"
    [mkBeneficiary envAllValid "0xVault" MIN_BALANCE 1300 input0] MIN_BALANCE 30
    PeriodUnit.days).1.mpr ⟨rfl, rfl, rfl, rfl, rfl⟩

/-! ## C5 — allocation-sum guard -/

/-- C5: when the allocations sum to more than the live balance,
`setupBeneficiaries` fails with a validation error and leaves the stored
record exactly as it was; conversely a successful call — and any beneficiary
set accepted by `validateBeneficiaryAllocations` — has its allocation total
within the balance. -/
theorem setupBeneficiaries_allocation_guard (env : ChainEnv) (vaultAddress : String)
    (balance : Int) (now deadline : Nat) (inputs : List BeneficiaryInput)
    (store : Option VaultStorage) :
    (balance < inputTotalAllocation inputs →
      (∃ e, (setupBeneficiaries env vaultAddress balance now deadline inputs store).1 =
        Except.error e) ∧
      (setupBeneficiaries env vaultAddress balance now deadline inputs store).2 = store) ∧
    (∀ bens st,
      setupBeneficiaries env vaultAddress balance now deadline inputs store =
        (Except.ok bens, st) → inputTotalAllocation inputs ≤ balance) ∧
    (∀ (bs : List Beneficiary) (bal : Int),
      (validateBeneficiaryAllocations bs bal).isValid = true → totalAllocation bs ≤ bal) := by
  refine ⟨?_, ?_, ?_⟩
  · intro hover
    unfold setupBeneficiaries
    repeat' split
    all_goals exact ⟨⟨_, rfl⟩, rfl⟩
  · intro bens st h
    unfold setupBeneficiaries at h
    repeat' split at h
    all_goals first
      | omega
      | simp at h
  · intro bs bal h
    unfold validateBeneficiaryAllocations at h
    split at h
    · simp at h
    · split at h
      · simp at h
      · split at h
        · simp at h
        · split at h
          · simp at h
          · omega

/-- Witness for C5 at a concrete over-allocated input. -/
theorem setupBeneficiaries_allocation_guard_witness :
    (∃ e, (setupBeneficiaries envAllValid "0xVault" 3 2000 2300 [overInput]
      (some vault0)).1 = Except.error e) ∧
    (setupBeneficiaries envAllValid "0xVault" 3 2000 2300 [overInput]
      (some vault0)).2 = some vault0 :=
  (setupBeneficiaries_allocation_guard envAllValid "0xVault" 3 2000 2300 [overInput]
    (some vault0)).1 (by decide)

/-! ## Inversion lemmas for `setupBeneficiaries` -/

/-- A successful `setupBeneficiaries` on an existing record returns the
beneficiaries built from the inputs and stores them, together with the fresh
delegations, in place of the prior lists. -/
theorem setupBeneficiaries_ok_inversion (env : ChainEnv) (a : String) (bal : Int)
    (now dl : Nat) (inputs : List BeneficiaryInput) (v : VaultStorage)
    (bens : List Beneficiary) (st : Option VaultStorage)
    (h : setupBeneficiaries env a bal now dl inputs (some v) = (Except.ok bens, st)) :
    bens = inputs.map (mkBeneficiary env a bal dl) ∧
    st = some { v with
        beneficiaries := inputs.map (mkBeneficiary env a bal dl)
        delegations := inputs.map (mkStoredDelegation env a now dl)
        lastUpdated := now } := by
  rcases hdup : (validateNoDuplicates (inputs.map (fun b => b.address))).isValid with _ | _
  · simp [setupBeneficiaries, hdup] at h
  · rcases heach : validateEachBeneficiary env inputs with _ | e
    · by_cases hover : bal < inputTotalAllocation inputs
      · simp [setupBeneficiaries, hdup, heach, hover] at h
      · simp [setupBeneficiaries, hdup, heach, hover] at h
        obtain ⟨h1, h2⟩ := h
        exact ⟨h1.symm, h2.symm⟩
    · simp [setupBeneficiaries, hdup, heach] at h

/-- A failing `setupBeneficiaries` leaves the stored record untouched. -/
theorem setupBeneficiaries_error_preserves (env : ChainEnv) (a : String) (bal : Int)
    (now dl : Nat) (inputs : List BeneficiaryInput) (store : Option VaultStorage)
    (e : SetupError) (st : Option VaultStorage)
    (h : setupBeneficiaries env a bal now dl inputs store = (Except.error e, st)) :
    st = store := by
  rcases hdup : (validateNoDuplicates (inputs.map (fun b => b.address))).isValid with _ | _
  · simp [setupBeneficiaries, hdup] at h
    exact h.2.symm
  · rcases heach : validateEachBeneficiary env inputs with _ | e'
    · by_cases hover : bal < inputTotalAllocation inputs
      · simp [setupBeneficiaries, hdup, heach, hover] at h
        exact h.2.symm
      · rcases store with _ | v <;> simp [setupBeneficiaries, hdup, heach, hover] at h
    · simp [setupBeneficiaries, hdup, heach] at h
      exact h.2.symm

/-! ## C8 — full replace of the beneficiary list -/

/-- C8: a successful `setupBeneficiaries` overwrites the stored beneficiary
list with exactly the beneficiaries built from this call's inputs (and the
delegations likewise); a prior beneficiary whose address is not re-included
is absent from the stored record afterwards. -/
theorem setupBeneficiaries_full_replace (env : ChainEnv) (vaultAddress : String)
    (balance : Int) (now deadline : Nat) (inputs : List BeneficiaryInput)
    (v : VaultStorage) (bens : List Beneficiary) (st : Option VaultStorage)
    (h : setupBeneficiaries env vaultAddress balance now deadline inputs (some v) =
      (Except.ok bens, st)) :
    st = some { v with
        beneficiaries := bens
        delegations := inputs.map (mkStoredDelegation env vaultAddress now deadline)
        lastUpdated := now } ∧
    bens.map (fun b => b.address) = inputs.map (fun b => b.address) ∧
    (∀ old ∈ v.beneficiaries, (∀ i ∈ inputs, i.address ≠ old.address) →
      ∀ b ∈ bens, b.address ≠ old.address) := by
  obtain ⟨hbens, hst⟩ :=
    setupBeneficiaries_ok_inversion env vaultAddress balance now deadline inputs v bens st h
  subst hbens
  refine ⟨hst, ?_, ?_⟩
  · simp [List.map_map, Function.comp, mkBeneficiary]
  · intro old _ hnot b hb
    simp only [List.mem_map] at hb
    obtain ⟨i, hi, rfl⟩ := hb
    simpa [mkBeneficiary] using hnot i hi

/-- Witness for C8 at a concrete call replacing `vault0`'s beneficiary. -/
theorem setupBeneficiaries_full_replace_witness :
    ([mkBeneficiary envAllValid "0xVault" MIN_BALANCE 2300 input2].map
      (fun b => b.address)) = [input2].map (fun b => b.address) :=
  (setupBeneficiaries_full_replace envAllValid "0xVault" MIN_BALANCE 2000 2300 [input2]
    vault0 [mkBeneficiary envAllValid "0xVault" MIN_BALANCE 2300 input2]
    (some { vault0 with
      beneficiaries := [mkBeneficiary envAllValid "0xVault" MIN_BALANCE 2300 input2]
      delegations := [mkStoredDelegation envAllValid "0xVault" 2000 2300 input2]
      lastUpdated := 2000 }) rfl).2.1

/-! ## C2 — delegations are not an append-only history -/

/-- C2 counterexample: the stored delegation of `vault0`'s first epoch is
physically removed by the next successful `setupBeneficiaries` — the
persisted delegations list is not append-only. -/
theorem setup_removes_prior_delegation :
    (mkStoredDelegation envAllValid "0xVault" 1000 1300 input0) ∈ vault0.delegations ∧
    ((setupBeneficiaries envAllValid "0xVault" MIN_BALANCE 2000 2300 [input2]
        (some vault0)).2.map (fun v => v.delegations)) =
      some [mkStoredDelegation envAllValid "0xVault" 2000 2300 input2] ∧
    (mkStoredDelegation envAllValid "0xVault" 1000 1300 input0) ∉
      [mkStoredDelegation envAllValid "0xVault" 2000 2300 input2] :=
  ⟨by simp [vault0], rfl, by decide⟩

/-- Lemma: marking the successfully-disabled delegations leaves exactly the
failed-to-disable ones active. -/
theorem filter_enabled_markDisabled (env : ChainEnv) (l : List StoredDelegation) :
    ((l.map (fun d =>
        if !d.isDisabled && env.disableOk d then { d with isDisabled := true } else d)).filter
      (fun d => !d.isDisabled)) =
    (l.filter (fun d => !env.disableOk d && !d.isDisabled)) := by
  induction l with
  | nil => rfl
  | cons d rest ih =>
    rcases hd : d.isDisabled with _ | _ <;> rcases hok : env.disableOk d with _ | _ <;>
      simp [hd, hok] <;> simpa using ih

/-- C2 (amended): during check-in the old epoch's delegations whose disable
transactions succeed are marked disabled — and those marks are already
persisted when the new delegations get created (a creation failure leaves the
marked store behind) — but the history is not append-only: a successful setup
replaces the persisted delegations with exactly the new epoch's list. -/
theorem checkIn_disables_before_new_epoch :
    (∀ (env : ChainEnv) (now : Nat) (v : VaultStorage),
      ((markDisabled env now v).delegations.filter (fun d => !d.isDisabled)) =
        ((getActiveDelegations v).filter (fun d => !env.disableOk d))) ∧
    (∀ (env : ChainEnv) (a : String) (bal : Int) (now dl : Nat)
        (inputs : List BeneficiaryInput) (v v' : VaultStorage)
        (bens : List Beneficiary),
      setupBeneficiaries env a bal now dl inputs (some v) = (Except.ok bens, some v') →
      v'.delegations = inputs.map (mkStoredDelegation env a now dl)) ∧
    (∀ (env : ChainEnv) (bal : Int) (now : Nat) (np : Option Nat) (v : VaultStorage)
        (e : SetupError) (st : Option VaultStorage),
      0 < (getActiveDelegations v).length →
      checkIn env bal now np (some v) = (Except.error (CheckInError.setupFailed e), st) →
      st = some (markDisabled env now v)) := by
  refine ⟨?_, ?_, ?_⟩
  · intro env now v
    rw [markDisabled, getActiveDelegations]
    rw [List.filter_filter]
    exact filter_enabled_markDisabled env v.delegations
  · intro env a bal now dl inputs v v' bens h
    obtain ⟨_, hst⟩ := setupBeneficiaries_ok_inversion env a bal now dl inputs v bens _ h
    injection hst with hst
    rw [hst]
  · intro env bal now np v e st hpos h
    simp only [checkIn] at h
    rw [if_neg (Nat.pos_iff_ne_zero.mp hpos)] at h
    rcases hsetup : setupBeneficiaries env v.config.vaultAddress bal now
        (getDeadlineFromPeriod now (effectivePeriod np v.config.checkInPeriod)
          v.config.checkInPeriodUnit)
        (v.beneficiaries.map beneficiaryToInput) (some (markDisabled env now v)) with ⟨res, st'⟩
    rw [hsetup] at h
    rcases res with e' | bens
    · simp only [Prod.mk.injEq] at h
      obtain ⟨_, hst⟩ := h
      subst hst
      exact setupBeneficiaries_error_preserves env v.config.vaultAddress bal now _ _ _ _ _ hsetup
    · simp at h

/-- Witness for C2's amended theorem: the replacement clause at a concrete
successful setup on `vault0`. -/
theorem checkIn_disables_before_new_epoch_witness :
    ({ vault0 with
        beneficiaries := [mkBeneficiary envAllValid "0xVault" MIN_BALANCE 2300 input2]
        delegations := [mkStoredDelegation envAllValid "0xVault" 2000 2300 input2]
        lastUpdated := 2000 } : VaultStorage).delegations =
      [input2].map (mkStoredDelegation envAllValid "0xVault" 2000 2300) :=
  checkIn_disables_before_new_epoch.2.1 envAllValid "0xVault" MIN_BALANCE 2000 2300
    [input2] vault0
    { vault0 with
        beneficiaries := [mkBeneficiary envAllValid "0xVault" MIN_BALANCE 2300 input2]
        delegations := [mkStoredDelegation envAllValid "0xVault" 2000 2300 input2]
        lastUpdated := 2000 }
    [mkBeneficiary envAllValid "0xVault" MIN_BALANCE 2300 input2] rfl

/-! ## C10 — state of storage after setup and after check-in -/

/-- C10: immediately after the inner `setupBeneficiaries` of a check-in,
storage holds exactly one fresh delegation per beneficiary (new deadline,
not disabled) — but the completed `checkIn` then saves the record it loaded
at the start, so the persisted delegations revert to the pre-check-in epoch
(old deadline, original disabled flags) even though the operation reports
success.  This final save contradicts the disable-and-recreate behaviour the
operation itself just performed. -/
theorem checkIn_stale_save_loses_new_delegations :
    ((setupBeneficiaries envAllValid "0xVault" MIN_BALANCE 2000
        (getDeadlineFromPeriod 2000 5 PeriodUnit.minutes)
        (vault0.beneficiaries.map beneficiaryToInput)
        (some (markDisabled envAllValid 2000 vault0))).2.map
      (fun v => v.delegations.map (fun d => (d.deadline, d.isDisabled)))) =
      some [(2300, false)] ∧
    ((checkIn envAllValid MIN_BALANCE 2000 none (some vault0)).2.map
      (fun v => v.delegations.map (fun d => (d.deadline, d.isDisabled)))) =
      some [(1300, false)] ∧
    (∃ rec, (checkIn envAllValid MIN_BALANCE 2000 none (some vault0)).1 =
      Except.ok rec) :=
  ⟨rfl, rfl, ⟨_, rfl⟩⟩

/-! ## C3 — claim rejection order -/

/-- C3 counterexample: a beneficiary whose claimed flag is set is rejected
with the too-early error, not the already-claimed error, when the deadline
has not passed — the deadline check runs first. -/
theorem claim_tooEarly_despite_claimed_flag :
    (vaultClaimed.beneficiaries.all (fun b => b.hasClaimed)) = true ∧
    (simpleClaim envAllValid 1200 "0xB1" (some vaultClaimed)).1 =
      Except.error (ClaimError.tooEarly 100) ∧
    ClaimError.tooEarly 100 ≠ ClaimError.alreadyClaimed :=
  ⟨rfl, rfl, by decide⟩

/-- Marking the first matching beneficiary claimed is visible to a subsequent
`find?` with the same address predicate. -/
theorem find?_markFirstClaimed (target txHash : String) (now : Nat)
    (l : List Beneficiary) (b : Beneficiary)
    (h : l.find? (fun x => matchesAddress target x.address) = some b) :
    (markFirstClaimed target txHash now l).find?
      (fun x => matchesAddress target x.address) =
    some { b with
      hasClaimed := true
      claimTxHash := some txHash
      claimTimestamp := some now } := by
  induction l with
  | nil => simp at h
  | cons hd tl ih =>
    rcases hm : matchesAddress target hd.address with _ | _
    · have h2 : tl.find? (fun x => matchesAddress target x.address) = some b := by
        simpa [hm] using h
      simpa [markFirstClaimed, hm] using ih h2
    · have h2 : hd = b := by simpa [hm] using h
      subst h2
      simp [markFirstClaimed, hm]

/-- C3 (amended): with the caller's beneficiary and stored delegation located,
`simpleClaim` rejects a disabled delegation first; then, when the delegation
is enabled, rejects with the too-early error (carrying the remaining seconds)
while the deadline has not passed; then rejects an already-claimed beneficiary
with the already-claimed error; otherwise it succeeds — and after a success,
any later attempt by the same beneficiary fails with the already-claimed
error, so a claim succeeds at most once per beneficiary. -/
theorem simpleClaim_check_order (env : ChainEnv) (now : Nat) (addr : String)
    (v : VaultStorage) (ben : Beneficiary) (sd : StoredDelegation)
    (hb : v.beneficiaries.find? (fun b => matchesAddress addr b.address) = some ben)
    (hd : v.delegations.find? (fun d => matchesAddress addr d.beneficiaryAddress) = some sd) :
    (sd.isDisabled = true →
      (simpleClaim env now addr (some v)).1 = Except.error ClaimError.delegationDisabled) ∧
    (sd.isDisabled = false → isDeadlinePassed now v.config.nextDeadline = false →
      (simpleClaim env now addr (some v)).1 =
        Except.error (ClaimError.tooEarly (v.config.nextDeadline - now))) ∧
    (sd.isDisabled = false → isDeadlinePassed now v.config.nextDeadline = true →
      ben.hasClaimed = true →
      (simpleClaim env now addr (some v)).1 = Except.error ClaimError.alreadyClaimed) ∧
    (sd.isDisabled = false → isDeadlinePassed now v.config.nextDeadline = true →
      ben.hasClaimed = false →
      (simpleClaim env now addr (some v)).1 =
        Except.ok (env.claimTx ben, ben.allocation)) ∧
    (∀ r v', simpleClaim env now addr (some v) = (Except.ok r, some v') →
      ∀ (env₂ : ChainEnv) (now₂ : Nat), now ≤ now₂ →
        (simpleClaim env₂ now₂ addr (some v')).1 = Except.error ClaimError.alreadyClaimed) := by
  refine ⟨?_, ?_, ?_, ?_, ?_⟩
  · intro h1
    simp [simpleClaim, hb, hd, h1]
  · intro h1 h2
    simp [simpleClaim, hb, hd, h1, h2]
  · intro h1 h2 h3
    simp [simpleClaim, hb, hd, h1, h2, h3]
  · intro h1 h2 h3
    simp [simpleClaim, hb, hd, h1, h2, h3]
  · intro r v' h env₂ now₂ hle
    simp only [simpleClaim, hb, hd] at h
    split_ifs at h with h1 h2 h3
    · simp at h
    · simp at h
    · simp at h
    · simp only [Prod.mk.injEq, Option.some.injEq] at h
      obtain ⟨-, hv'⟩ := h
      subst hv'
      have h2' : v.config.nextDeadline ≤ now := by
        simpa [isDeadlinePassed] using h2
      have hpast2 : isDeadlinePassed now₂ v.config.nextDeadline = true := by
        simp only [isDeadlinePassed, decide_eq_true_eq]
        omega
      have hfind := find?_markFirstClaimed addr (env.claimTx ben) now v.beneficiaries ben hb
      simp [simpleClaim, hfind, hd, h1, hpast2]

/-- Witness for C3's amended theorem: a too-early rejection on `vault0`. -/
theorem simpleClaim_check_order_witness :
    (simpleClaim envAllValid 1200 "0xB1" (some vault0)).1 =
      Except.error (ClaimError.tooEarly 100) :=
  (simpleClaim_check_order envAllValid 1200 "0xB1" vault0
    (mkBeneficiary envAllValid "0xVault" MIN_BALANCE 1300 input0)
    (mkStoredDelegation envAllValid "0xVault" 1000 1300 input0) rfl rfl).2.1 rfl rfl

/-! ## C4 — check-in deadline semantics -/

/-- Inversion of a successful `checkIn`: the reported and stored deadline come
from `getDeadlineFromPeriod` at the effective period, and the stored config
keeps the unit while updating the period. -/
theorem checkIn_ok_inversion (env : ChainEnv) (bal : Int) (now : Nat)
    (np : Option Nat) (v : VaultStorage) (rec : CheckInRecord) (v' : VaultStorage)
    (h : checkIn env bal now np (some v) = (Except.ok rec, some v')) :
    rec.newDeadline = getDeadlineFromPeriod now (effectivePeriod np v.config.checkInPeriod)
      v.config.checkInPeriodUnit ∧
    v'.config.nextDeadline = rec.newDeadline ∧
    v'.config.checkInPeriod = effectivePeriod np v.config.checkInPeriod ∧
    v'.config.checkInPeriodUnit = v.config.checkInPeriodUnit ∧
    v'.beneficiaries = v.beneficiaries ∧
    v'.delegations = v.delegations := by
  simp only [checkIn] at h
  split at h
  · simp at h
  · split at h
    · simp at h
    · simp only [Prod.mk.injEq, Except.ok.injEq, Option.some.injEq] at h
      obtain ⟨hrec, hv'⟩ := h
      subst hrec
      subst hv'
      simp

/-- C4: a successful `checkIn` sets both the recorded and the stored next
deadline to `now + period` in the configured unit — the new period when one
is provided (non-zero), the existing one otherwise; a second check-in without
a period change yields `now₂ + period` again, and the two deadlines are
monotonically non-decreasing. -/
theorem checkIn_deadline_semantics (env : ChainEnv) (bal : Int) (now : Nat)
    (np : Option Nat) (v : VaultStorage) (rec : CheckInRecord) (v' : VaultStorage)
    (h : checkIn env bal now np (some v) = (Except.ok rec, some v')) :
    (np = none →
      rec.newDeadline = now + v.config.checkInPeriod * v.config.checkInPeriodUnit.seconds) ∧
    (∀ p, np = some p → 0 < p →
      rec.newDeadline = now + p * v.config.checkInPeriodUnit.seconds) ∧
    v'.config.nextDeadline = rec.newDeadline ∧
    (np = none → ∀ (env₂ : ChainEnv) (bal₂ : Int) (now₂ : Nat) (rec₂ : CheckInRecord)
        (v₂ : VaultStorage), now ≤ now₂ →
      checkIn env₂ bal₂ now₂ none (some v') = (Except.ok rec₂, some v₂) →
      rec₂.newDeadline = now₂ + v.config.checkInPeriod * v.config.checkInPeriodUnit.seconds ∧
      rec.newDeadline ≤ rec₂.newDeadline) := by
  obtain ⟨h1, h2, h3, h4, -, -⟩ := checkIn_ok_inversion env bal now np v rec v' h
  refine ⟨?_, ?_, h2, ?_⟩
  · intro hnp
    subst hnp
    simpa [getDeadlineFromPeriod, effectivePeriod] using h1
  · intro p hnp hp
    subst hnp
    simpa [getDeadlineFromPeriod, effectivePeriod, Nat.pos_iff_ne_zero.mp hp] using h1
  · intro hnp env₂ bal₂ now₂ rec₂ v₂ hle h'
    subst hnp
    obtain ⟨g1, -, -, -, -, -⟩ := checkIn_ok_inversion env₂ bal₂ now₂ none v' rec₂ v₂ h'
    have hper : v'.config.checkInPeriod = v.config.checkInPeriod := by
      simpa [effectivePeriod] using h3
    have hrec2 : rec₂.newDeadline =
        now₂ + v.config.checkInPeriod * v.config.checkInPeriodUnit.seconds := by
      rw [g1]
      simp [getDeadlineFromPeriod, effectivePeriod, hper, h4]
    refine ⟨hrec2, ?_⟩
    have hrec1 : rec.newDeadline =
        now + v.config.checkInPeriod * v.config.checkInPeriodUnit.seconds := by
      rw [h1]
      simp [getDeadlineFromPeriod, effectivePeriod]
    rw [hrec1, hrec2]
    exact Nat.add_le_add_right hle _

/-- Witness for C4: two consecutive check-ins on `vault0` at times 2000 and
2100 with a 5-minute period. -/
theorem checkIn_deadline_semantics_witness :
    checkInRec2.newDeadline =
      2100 + vault0.config.checkInPeriod * vault0.config.checkInPeriodUnit.seconds ∧
    checkInRec1.newDeadline ≤ checkInRec2.newDeadline :=
  (checkIn_deadline_semantics envAllValid MIN_BALANCE 2000 none vault0 checkInRec1
    vaultAfter1 rfl).2.2.2 rfl envAllValid MIN_BALANCE 2100 checkInRec2 vaultAfter2
    (by omega) rfl

/-! ## C6 — check-in failure conditions -/

/-- C6 counterexample: a check-in on a vault with one active delegation still
fails fatally when the beneficiary allocations exceed the current balance
(the re-run of `setupBeneficiaries` throws), so fatal failure is not
equivalent to the active-delegation set being empty. -/
theorem checkIn_fatal_with_active_delegations :
    0 < (getActiveDelegations vaultOver).length ∧
    (checkIn envAllValid MIN_BALANCE 2000 none (some vaultOver)).1 =
      Except.error (CheckInError.setupFailed SetupError.allocationExceedsBalance) ∧
    CheckInError.setupFailed SetupError.allocationExceedsBalance ≠
      CheckInError.noActiveDelegations :=
  ⟨by decide, rfl, by decide⟩

/-- C6 (amended): `checkIn` fails with `NoActiveDelegationsError` exactly when
the vault's non-disabled delegation set is empty, and in that case before any
state change; its only other failure mode is a propagated setup failure (for
example allocations exceeding the current balance); and when at least one
active delegation exists and the re-setup succeeds, the check-in succeeds
regardless of how many individual disable transactions failed — counting the
successful disables and the created delegations. -/
theorem checkIn_error_conditions (env : ChainEnv) (bal : Int) (now : Nat)
    (np : Option Nat) (v : VaultStorage) :
    ((checkIn env bal now np (some v)).1 = Except.error CheckInError.noActiveDelegations ↔
      (getActiveDelegations v).length = 0) ∧
    ((getActiveDelegations v).length = 0 →
      checkIn env bal now np (some v) =
        (Except.error CheckInError.noActiveDelegations, some v)) ∧
    (∀ err st, checkIn env bal now np (some v) = (Except.error err, st) →
      err = CheckInError.noActiveDelegations ∨ ∃ e, err = CheckInError.setupFailed e) ∧
    (0 < (getActiveDelegations v).length →
      ∀ bens st,
        setupBeneficiaries env v.config.vaultAddress bal now
          (getDeadlineFromPeriod now (effectivePeriod np v.config.checkInPeriod)
            v.config.checkInPeriodUnit)
          (v.beneficiaries.map beneficiaryToInput) (some (markDisabled env now v)) =
          (Except.ok bens, st) →
        (∀ err st', checkIn env bal now np (some v) ≠ (Except.error err, st')) ∧
        (∀ rec v', checkIn env bal now np (some v) = (Except.ok rec, some v') →
          rec.disabledDelegationCount =
            ((getActiveDelegations v).filter env.disableOk).length ∧
          rec.createdDelegationCount = bens.length)) := by
  by_cases hlen : (getActiveDelegations v).length = 0
  · refine ⟨by simp [checkIn, hlen], fun _ => by simp [checkIn, hlen], ?_, ?_⟩
    · intro err st h
      simp [checkIn, hlen] at h
      obtain ⟨h1, -⟩ := h
      exact Or.inl h1.symm
    · intro hpos
      omega
  · rcases hsetup : setupBeneficiaries env v.config.vaultAddress bal now
        (getDeadlineFromPeriod now (effectivePeriod np v.config.checkInPeriod)
          v.config.checkInPeriodUnit)
        (v.beneficiaries.map beneficiaryToInput) (some (markDisabled env now v)) with ⟨res, st'⟩
    rcases res with e | bens'
    · refine ⟨by simp [checkIn, hlen, hsetup], fun h0 => absurd h0 hlen, ?_, ?_⟩
      · intro err st h
        simp [checkIn, hlen, hsetup] at h
        obtain ⟨h1, -⟩ := h
        exact Or.inr ⟨e, h1.symm⟩
      · intro _ bens st h
        simp at h
    · refine ⟨by simp [checkIn, hlen, hsetup], fun h0 => absurd h0 hlen, ?_, ?_⟩
      · intro err st h
        simp [checkIn, hlen, hsetup] at h
      · intro _ bens st h
        simp only [Prod.mk.injEq, Except.ok.injEq] at h
        obtain ⟨hbens, -⟩ := h
        subst hbens
        constructor
        · intro err st' hc
          simp [checkIn, hlen, hsetup] at hc
        · intro rec v' hc
          simp only [checkIn] at hc
          rw [if_neg hlen, hsetup] at hc
          simp only [Prod.mk.injEq, Except.ok.injEq, Option.some.injEq] at hc
          obtain ⟨hrec, -⟩ := hc
          subst hrec
          exact ⟨rfl, rfl⟩

/-- Witness for C6's amended theorem: the successful check-in on `vault0`. -/
theorem checkIn_error_conditions_witness :
    checkInRec1.disabledDelegationCount =
      ((getActiveDelegations vault0).filter envAllValid.disableOk).length ∧
    checkInRec1.createdDelegationCount = freshBens0.length :=
  ((checkIn_error_conditions envAllValid MIN_BALANCE 2000 none vault0).2.2.2 (by decide)
    freshBens0 (some midVault0) rfl).2 checkInRec1 vaultAfter1 rfl

/-! ## C7 — persistence round-trip -/

/-- Digit characters decode back to their digit. -/
theorem charDigit_digitChar (d : Nat) (h : d < 10) : charDigit (digitChar d) = d := by
  interval_cases d <;> rfl

/-- Decimal encoding of a natural number decodes exactly. -/
theorem decimalNat_natDecimal (n : Nat) : decimalNat (natDecimal n) = n := by
  by_cases h : n = 0
  · subst h
    rfl
  · rw [natDecimal, if_neg h, decimalNat, List.map_reverse, List.reverse_reverse,
      List.map_map]
    have hdig : (Nat.digits 10 n).map (charDigit ∘ digitChar) = Nat.digits 10 n := by
      have hcongr : ∀ x ∈ Nat.digits 10 n, (charDigit ∘ digitChar) x = id x := fun x hx =>
        charDigit_digitChar x (Nat.digits_lt_base (by norm_num) hx)
      rw [List.map_congr_left hcongr, List.map_id]
    rw [hdig, Nat.ofDigits_digits]

/-- No character of a decimal encoding is a minus sign. -/
theorem natDecimal_no_dash (n : Nat) : ∀ c ∈ natDecimal n, c ≠ '-' := by
  intro c hc
  rw [natDecimal] at hc
  split at hc
  · simp only [List.mem_singleton] at hc
    subst hc
    decide
  · simp only [List.mem_reverse, List.mem_map] at hc
    obtain ⟨d, hd, rfl⟩ := hc
    have hlt : d < 10 := Nat.digits_lt_base (by norm_num) hd
    interval_cases d <;> decide

/-- The decimal encoding is never empty. -/
theorem natDecimal_ne_nil (n : Nat) : natDecimal n ≠ [] := by
  rw [natDecimal]
  split
  · simp
  · simp [Nat.digits_ne_nil_iff_ne_zero, *]

/-- `BigInt(x.toString())` is the identity: serialized bigint fields decode
with no precision loss. -/
theorem stringToBigint_bigintToString (i : Int) : stringToBigint (bigintToString i) = i := by
  by_cases h : i < 0
  · rw [bigintToString, if_pos h]
    have hr : stringToBigint (String.mk ('-' :: natDecimal i.natAbs)) =
        -(decimalNat (natDecimal i.natAbs) : Int) := rfl
    rw [hr, decimalNat_natDecimal]
    omega
  · rw [bigintToString, if_neg h]
    rcases hnd : natDecimal i.toNat with _ | ⟨c, rest⟩
    · exact absurd hnd (natDecimal_ne_nil i.toNat)
    · have hc : c ≠ '-' := natDecimal_no_dash i.toNat c (hnd ▸ List.mem_cons_self c rest)
      unfold stringToBigint
      split
      · rename_i rest1 heq
        have heq' : c :: rest = '-' :: rest1 := heq
        injection heq' with h1 _
        exact absurd h1 hc
      · show (decimalNat (c :: rest) : Int) = i
        rw [← hnd, decimalNat_natDecimal]
        omega

/-- Element-wise parsing undoes element-wise serialization. -/
theorem parseList_map (f : Json → Option α) (g : α → Json)
    (h : ∀ a, f (g a) = some a) (l : List α) :
    parseList f (l.map g) = some l := by
  induction l with
  | nil => rfl
  | cons a rest ih => simp [parseList, h, ih]

/-- Period units round-trip through their string value. -/
theorem parsePeriodUnit_periodUnitString (u : PeriodUnit) :
    parsePeriodUnit (periodUnitString u) = some u := by
  cases u <;> rfl

/-- Delegation payloads round-trip. -/
theorem parseDelegation_serializeDelegation (d : Delegation) :
    parseDelegation (serializeDelegation d) = some d := by
  simp [parseDelegation, serializeDelegation, getWith, Json.getField, List.lookup,
    parseStr, parseNat, parseBigint, stringToBigint_bigintToString]

/-- Beneficiaries round-trip, optional fields included. -/
theorem parseBeneficiary_serializeBeneficiary (b : Beneficiary) :
    parseBeneficiary (serializeBeneficiary b) = some b := by
  obtain ⟨address, name, allocation, percentage, tokenAddress, delegation,
    delegationHash, hasClaimed, claimTxHash, claimTimestamp⟩ := b
  rcases delegation with _ | d <;> rcases delegationHash with _ | dh <;>
    rcases claimTxHash with _ | ctx <;> rcases claimTimestamp with _ | cts <;>
      simp [parseBeneficiary, serializeBeneficiary, optField, getWith, getOptWith,
        Json.getField, List.lookup, parseStr, parseNat, parseIntJson, parseBool,
        parseBigint, stringToBigint_bigintToString, parseDelegation_serializeDelegation]

/-- Stored delegations round-trip. -/
theorem parseStoredDelegation_serializeStoredDelegation (d : StoredDelegation) :
    parseStoredDelegation (serializeStoredDelegation d) = some d := by
  simp [parseStoredDelegation, serializeStoredDelegation, getWith, Json.getField,
    List.lookup, parseStr, parseNat, parseBool, parseDelegation_serializeDelegation]

/-- Vault configurations round-trip. -/
theorem parseConfig_serializeConfig (c : VaultConfig) :
    parseConfig (serializeConfig c) = some c := by
  simp [parseConfig, serializeConfig, getWith, Json.getField, List.lookup, parseStr,
    parseNat, parseBigint, parseArr, stringToBigint_bigintToString,
    parsePeriodUnit_periodUnitString, parseList_map parseStr Json.str (fun _ => rfl)]

/-- Check-in records round-trip. -/
theorem parseCheckInRecord_serializeCheckInRecord (r : CheckInRecord) :
    parseCheckInRecord (serializeCheckInRecord r) = some r := by
  simp [parseCheckInRecord, serializeCheckInRecord, getWith, Json.getField, List.lookup,
    parseStr, parseNat, parseBigint, stringToBigint_bigintToString]

/-- The full stored record round-trips through serialization. -/
theorem parseVault_serializeVault (v : VaultStorage) :
    parseVault (serializeVault v) = some v := by
  simp [parseVault, serializeVault, getWith, Json.getField, List.lookup, parseNat,
    parseArr, parseConfig_serializeConfig,
    parseList_map parseBeneficiary serializeBeneficiary parseBeneficiary_serializeBeneficiary,
    parseList_map parseStoredDelegation serializeStoredDelegation
      parseStoredDelegation_serializeStoredDelegation,
    parseList_map parseCheckInRecord serializeCheckInRecord
      parseCheckInRecord_serializeCheckInRecord]

/-- C7: `save(vaultId, record)` followed by `load(vaultId)` returns the record
unchanged — in particular every integer-valued field (allocation, totalValue,
gasUsed, maxAmount) is exactly equal and the beneficiary list keeps its
order. -/
theorem loadVaultData_saveVaultData (store : List (String × Json))
    (vaultAddress : String) (data : VaultStorage) :
    loadVaultData (saveVaultData store vaultAddress data) vaultAddress = some data := by
  simp [loadVaultData, saveVaultData, List.lookup, parseVault_serializeVault]

end Deadman
